import Mathlib

/-!
Verification of the chase-linker-payout service core against its
natural-language specification.  The definitions below are a shallow
embedding of `src/main.rs`: the pure assignment policy inside
`distribute_payouts_evenly`, the commit phase of a distribution cycle,
the cancellation handler `cancel_payout`, the callback dispatcher
`dispatch_payout_callback`, and the capacity-registry mutation
`update_trader_limit_internal`.  Monetary `f64` amounts are modelled as
rationals (only order comparisons occur in the embedded code paths);
the SQL store is modelled as a partial map from payout id to row.
-/

namespace ChaseLinker

/-- An eligible worker row, as returned by `ELIGIBLE_TRADERS_QUERY`
(only the fields the assignment policy reads). -/
structure TraderRecord where
  id : String
  email : String
  numeric_id : Int
  deriving Repr, DecidableEq

/-- An unassigned payout row, as returned by `UNASSIGNED_PAYOUTS_QUERY`
(only the fields the assignment policy reads; `amount` is nullable). -/
structure UnassignedPayout where
  id : String
  numeric_id : Int
  amount : Option Rat
  deriving Repr, DecidableEq

/-- One entry of the `assignments` vector built by
`distribute_payouts_evenly`: `(payout.id, trader.id, payout.numericId,
trader.numericId)`. -/
structure Assignment where
  payout_id : String
  trader_id : String
  payout_numeric : Int
  trader_numeric : Int
  deriving Repr, DecidableEq

/-- The capacity registry snapshot: `HashMap<String, f64>` read through
`limits_snapshot.get(&trader.id)`. -/
abbrev LimitsMap := String → Option Rat

/-- `limits_snapshot.get(&trader.id).copied().map_or(true, |max| amount <= max)`. -/
def traderAllowed (limits : LimitsMap) (amount : Rat) (t : TraderRecord) : Bool :=
  match limits t.id with
  | none => true
  | some m => decide (amount ≤ m)

/-- The inner `for offset in 0..traders.len()` scan of
`distribute_payouts_evenly`, iterating over the given offsets:
`idx = (current_index + offset) % traders.len()`, stopping at the first
allowed trader and returning `selected = Some((idx, trader))`. -/
def selectTraderFrom (traders : List TraderRecord) (limits : LimitsMap) (amount : Rat)
    (cursor : Nat) : List Nat → Option (Nat × TraderRecord)
  | [] => none
  | offset :: rest =>
    let idx := (cursor + offset) % traders.length
    match traders[idx]? with
    | some trader =>
      if traderAllowed limits amount trader then some (idx, trader)
      else selectTraderFrom traders limits amount cursor rest
    | none => selectTraderFrom traders limits amount cursor rest

/-- The full worker scan for one payout: offsets `0..traders.len()`. -/
def selectTrader (traders : List TraderRecord) (limits : LimitsMap) (amount : Rat)
    (cursor : Nat) : Option (Nat × TraderRecord) :=
  selectTraderFrom traders limits amount cursor (List.range traders.length)

/-- The `for payout in &payouts` loop of `distribute_payouts_evenly`:
`amount = payout.amount.unwrap_or_default()`; skip when `amount <= 0.0`;
otherwise scan for a trader; on a match push the assignment and set
`current_index = (idx + 1) % traders.len()`; on no match skip the payout
(the cursor is untouched). -/
def distributeLoop (traders : List TraderRecord) (limits : LimitsMap) :
    List UnassignedPayout → Nat → List Assignment × Nat
  | [], cursor => ([], cursor)
  | payout :: rest, cursor =>
    let amount := payout.amount.getD 0
    if amount ≤ 0 then
      distributeLoop traders limits rest cursor
    else
      match selectTrader traders limits amount cursor with
      | some (idx, trader) =>
        let next := distributeLoop traders limits rest ((idx + 1) % traders.length)
        (⟨payout.id, trader.id, payout.numeric_id, trader.numeric_id⟩ :: next.1, next.2)
      | none => distributeLoop traders limits rest cursor

/-- The pure assignment phase of `distribute_payouts_evenly`: the early
returns on an empty trader list and an empty payout list leave the
cursor untouched; otherwise the payout loop runs and the final
`current_index` is written back to the cursor. -/
def distribute_payouts_evenly (traders : List TraderRecord)
    (payouts : List UnassignedPayout) (limits : LimitsMap) (cursor : Nat) :
    List Assignment × Nat :=
  if traders.isEmpty then ([], cursor)
  else if payouts.isEmpty then ([], cursor)
  else distributeLoop traders limits payouts cursor

/-- Spec-side acceptability test for the worker at position `idx`:
its configured limit (if any) is ≥ the payout amount; absence of a
limit means unlimited. -/
def specAcceptable (traders : List TraderRecord) (limits : LimitsMap) (amount : Rat)
    (idx : Nat) : Bool :=
  match traders[idx]? with
  | some t => traderAllowed limits amount t
  | none => false

/-- Spec-side worker selection, following §4.1 of the spec: scan workers
starting at the cursor, wrapping around, up to `len(workers)` attempts,
and pick the first acceptable worker (its index is returned). -/
def specSelect (traders : List TraderRecord) (limits : LimitsMap) (amount : Rat)
    (cursor : Nat) : Option Nat :=
  ((List.range traders.length).find? (fun off =>
      specAcceptable traders limits amount ((cursor + off) % traders.length))).map
    (fun off => (cursor + off) % traders.length)

/-- Spec-side processing of a single payout: skip if amount ≤ 0,
otherwise pair it with the first acceptable worker from the cursor and
advance the cursor to that worker's index + 1 modulo the list length. -/
def assignStep (traders : List TraderRecord) (limits : LimitsMap)
    (acc : List Assignment × Nat) (p : UnassignedPayout) : List Assignment × Nat :=
  let amount := p.amount.getD 0
  if amount ≤ 0 then acc
  else
    match specSelect traders limits amount acc.2 with
    | some idx =>
      match traders[idx]? with
      | some t => (acc.1 ++ [⟨p.id, t.id, p.numeric_id, t.numeric_id⟩], (idx + 1) % traders.length)
      | none => acc
    | none => acc

/-- The assignment policy as worded by §4.1 of the spec: process payouts
in input order, carrying the updated cursor from one payout to the
next. -/
def assignSpec (traders : List TraderRecord) (payouts : List UnassignedPayout)
    (limits : LimitsMap) (cursor : Nat) : List Assignment × Nat :=
  payouts.foldl (assignStep traders limits) ([], cursor)

lemma selectTraderFrom_map_fst (traders : List TraderRecord) (limits : LimitsMap)
    (amount : Rat) (cursor : Nat) (offs : List Nat) :
    (selectTraderFrom traders limits amount cursor offs).map Prod.fst
      = (offs.find? (fun off =>
          specAcceptable traders limits amount ((cursor + off) % traders.length))).map
          (fun off => (cursor + off) % traders.length) := by
  induction offs with
  | nil => rfl
  | cons off rest ih =>
    simp only [selectTraderFrom]
    cases h : traders[(cursor + off) % traders.length]? with
    | none =>
      have hp : specAcceptable traders limits amount ((cursor + off) % traders.length)
          = false := by
        simp [specAcceptable, h]
      rw [List.find?_cons_of_neg _ (by simp [hp])]
      exact ih
    | some t =>
      by_cases ha : traderAllowed limits amount t
      · have hp : specAcceptable traders limits amount ((cursor + off) % traders.length)
            = true := by
          simp [specAcceptable, h, ha]
        rw [List.find?_cons_of_pos _ (by simp [hp])]
        simp [ha]
      · have hp : specAcceptable traders limits amount ((cursor + off) % traders.length)
            = false := by
          simp [specAcceptable, h, ha]
        rw [List.find?_cons_of_neg _ (by simp [hp])]
        simp [ha, ih]

lemma selectTraderFrom_lookup (traders : List TraderRecord) (limits : LimitsMap)
    (amount : Rat) (cursor : Nat) (offs : List Nat) (idx : Nat) (t : TraderRecord) :
    selectTraderFrom traders limits amount cursor offs = some (idx, t) →
      traders[idx]? = some t := by
  induction offs with
  | nil => intro h; simp [selectTraderFrom] at h
  | cons off rest ih =>
    intro h
    simp only [selectTraderFrom] at h
    cases hg : traders[(cursor + off) % traders.length]? with
    | none =>
      rw [hg] at h
      exact ih h
    | some t' =>
      rw [hg] at h
      by_cases ha : traderAllowed limits amount t'
      · simp [ha] at h
        obtain ⟨h1, h2⟩ := h
        rw [← h1, ← h2] at *
        exact hg
      · simp [ha] at h
        exact ih h

lemma specSelect_eq_selectTrader (traders : List TraderRecord) (limits : LimitsMap)
    (amount : Rat) (cursor : Nat) :
    specSelect traders limits amount cursor
      = (selectTrader traders limits amount cursor).map Prod.fst :=
  (selectTraderFrom_map_fst traders limits amount cursor (List.range traders.length)).symm

lemma foldl_assignStep (traders : List TraderRecord) (limits : LimitsMap)
    (ps : List UnassignedPayout) :
    ∀ acc c, ps.foldl (assignStep traders limits) (acc, c)
      = (acc ++ (distributeLoop traders limits ps c).1,
         (distributeLoop traders limits ps c).2) := by
  induction ps with
  | nil => intro acc c; simp [distributeLoop]
  | cons p rest ih =>
    intro acc c
    simp only [List.foldl_cons, distributeLoop, assignStep]
    by_cases hamt : p.amount.getD 0 ≤ 0
    · simp only [if_pos hamt]
      exact ih acc c
    · cases hsel : selectTrader traders limits (p.amount.getD 0) c with
      | none =>
        have hspec : specSelect traders limits (p.amount.getD 0) c = none := by
          rw [specSelect_eq_selectTrader, hsel]; rfl
        simp only [if_neg hamt, hspec, hsel]
        exact ih acc c
      | some pair =>
        obtain ⟨idx, t⟩ := pair
        have hspec : specSelect traders limits (p.amount.getD 0) c = some idx := by
          rw [specSelect_eq_selectTrader, hsel]; rfl
        have hlook : traders[idx]? = some t :=
          selectTraderFrom_lookup traders limits (p.amount.getD 0) c
            (List.range traders.length) idx t hsel
        simp only [if_neg hamt, hspec, hsel, hlook]
        simp [ih]

lemma distributeLoop_nil_traders (limits : LimitsMap) (ps : List UnassignedPayout) :
    ∀ c, distributeLoop [] limits ps c = ([], c) := by
  induction ps with
  | nil => intro c; rfl
  | cons p rest ih =>
    intro c
    simp only [distributeLoop, selectTrader, List.length_nil, List.range_zero,
      selectTraderFrom]
    by_cases hamt : p.amount.getD 0 ≤ 0
    · simp [hamt, ih c]
    · simp [hamt, ih c]

lemma distribute_eq_distributeLoop (traders : List TraderRecord)
    (payouts : List UnassignedPayout) (limits : LimitsMap) (cursor : Nat) :
    distribute_payouts_evenly traders payouts limits cursor
      = distributeLoop traders limits payouts cursor := by
  unfold distribute_payouts_evenly
  by_cases ht : traders.isEmpty
  · have htn : traders = [] := List.isEmpty_iff.mp ht
    subst htn
    simp [distributeLoop_nil_traders]
  · by_cases hp : payouts.isEmpty
    · have hpn : payouts = [] := List.isEmpty_iff.mp hp
      subst hpn
      simp [ht, distributeLoop]
    · simp [ht, hp]

/-- The trader scan used by Scenario A of the spec. -/
def scenarioTraders : List TraderRecord :=
  [⟨"W1", "w1", 1⟩, ⟨"W2", "w2", 2⟩]

/-- The payouts of Scenario A of the spec. -/
def scenarioPayouts : List UnassignedPayout :=
  [⟨"P1", 101, some 500⟩, ⟨"P2", 102, some 1500⟩]

/-- The limits snapshot of Scenario A of the spec: W1 capped at 1000,
W2 unlimited. -/
def scenarioLimits : LimitsMap :=
  fun k => if k = "W1" then some 1000 else none

end ChaseLinker

namespace ChaseLinker

/-- C1: the assignment policy of `distribute_payouts_evenly` processes
payouts in input order, skipping amounts ≤ 0; each remaining payout is
paired with the first worker from the cursor (wrapping, at most
`len(workers)` attempts) whose limit — absence meaning unlimited — is
≥ the amount; the cursor advances to the matched index + 1 modulo the
length and carries over to the next payout; an unacceptable payout
yields no pairing; an empty worker list yields no pairings and leaves
the cursor unchanged.  Stated as equality with `assignSpec`, the policy
transcribed from the spec's §4.1 wording. -/
theorem assignment_policy_matches_spec (traders : List TraderRecord)
    (payouts : List UnassignedPayout) (limits : LimitsMap) (cursor : Nat) :
    distribute_payouts_evenly traders payouts limits cursor
      = assignSpec traders payouts limits cursor
    ∧ (traders = [] →
        distribute_payouts_evenly traders payouts limits cursor = ([], cursor)) := by
  constructor
  · rw [distribute_eq_distributeLoop]
    unfold assignSpec
    rw [foldl_assignStep]
    simp
  · intro h
    subst h
    simp [distribute_payouts_evenly]

/-- Witness for C1 at a concrete input (empty worker list). -/
theorem assignment_policy_matches_spec_witness :
    distribute_payouts_evenly [] [⟨"P1", 1, some 10⟩] (fun _ => none) 7 = ([], 7) :=
  (assignment_policy_matches_spec [] [⟨"P1", 1, some 10⟩] (fun _ => none) 7).2 rfl

/-- C2 counterexample: in Scenario A (W1 limit 1000, W2 unlimited,
payouts 500 then 1500, cursor 0) the final cursor is not 1 — after P2
matches worker index 1 the cursor advances to (1 + 1) mod 2 = 0. -/
theorem scenarioA_cursor_not_one :
    (distribute_payouts_evenly scenarioTraders scenarioPayouts scenarioLimits 0).2 ≠ 1 := by
  decide

/-- C2 amended: Scenario A produces exactly the pairings
[(P1,W1),(P2,W2)] and a final cursor equal to 0. -/
theorem scenarioA_result :
    distribute_payouts_evenly scenarioTraders scenarioPayouts scenarioLimits 0
      = ([⟨"P1", "W1", 101, 1⟩, ⟨"P2", "W2", 102, 2⟩], 0) := by
  decide

/-- C7: the assignment policy is deterministic — identical inputs
(worker list, payout list, limits snapshot, cursor) produce identical
pairings and identical updated cursor. -/
theorem assignment_deterministic (w w' : List TraderRecord)
    (p p' : List UnassignedPayout) (l l' : LimitsMap) (c c' : Nat)
    (hw : w = w') (hp : p = p') (hl : l = l') (hc : c = c') :
    distribute_payouts_evenly w p l c = distribute_payouts_evenly w' p' l' c' := by
  subst hw; subst hp; subst hl; subst hc; rfl

/-- Witness for C7 at a concrete input. -/
theorem assignment_deterministic_witness :
    distribute_payouts_evenly scenarioTraders scenarioPayouts scenarioLimits 0
      = distribute_payouts_evenly scenarioTraders scenarioPayouts scenarioLimits 0 :=
  assignment_deterministic scenarioTraders scenarioTraders scenarioPayouts scenarioPayouts
    scenarioLimits scenarioLimits 0 0 rfl rfl rfl rfl

lemma selectTraderFrom_none_of_reject (traders : List TraderRecord) (limits : LimitsMap)
    (amount : Rat) (cursor : Nat)
    (hrej : ∀ t ∈ traders, traderAllowed limits amount t = false) :
    ∀ offs, selectTraderFrom traders limits amount cursor offs = none := by
  intro offs
  induction offs with
  | nil => rfl
  | cons off rest ih =>
    simp only [selectTraderFrom]
    cases hg : traders[(cursor + off) % traders.length]? with
    | none => exact ih
    | some t =>
      have hmem : t ∈ traders := List.getElem?_mem hg
      simp [hrej t hmem, ih]

lemma distributeLoop_cons_skip (traders : List TraderRecord) (limits : LimitsMap)
    (p : UnassignedPayout) (rest : List UnassignedPayout) (c : Nat)
    (h : p.amount.getD 0 ≤ 0 ∨ selectTrader traders limits (p.amount.getD 0) c = none) :
    distributeLoop traders limits (p :: rest) c = distributeLoop traders limits rest c := by
  rcases h with h | h
  · simp [distributeLoop, h]
  · by_cases hamt : p.amount.getD 0 ≤ 0
    · simp [distributeLoop, hamt]
    · simp [distributeLoop, hamt, h]

lemma distributeLoop_middle_skip (traders : List TraderRecord) (limits : LimitsMap)
    (p : UnassignedPayout) (l2 : List UnassignedPayout)
    (hp : ∀ c, p.amount.getD 0 ≤ 0 ∨
        selectTrader traders limits (p.amount.getD 0) c = none) :
    ∀ l1 c, distributeLoop traders limits (l1 ++ p :: l2) c
      = distributeLoop traders limits (l1 ++ l2) c := by
  intro l1
  induction l1 with
  | nil => intro c; exact distributeLoop_cons_skip traders limits p l2 c (hp c)
  | cons q l1' ih =>
    intro c
    simp only [List.cons_append, distributeLoop]
    by_cases hq : q.amount.getD 0 ≤ 0
    · simp only [if_pos hq]
      exact ih c
    · cases hsel : selectTrader traders limits (q.amount.getD 0) c with
      | none =>
        simp only [if_neg hq, hsel]
        exact ih c
      | some pair =>
        obtain ⟨idx, t⟩ := pair
        simp only [if_neg hq, hsel, List.append_eq]
        rw [ih ((idx + 1) % traders.length)]

lemma distributeLoop_payout_ids (traders : List TraderRecord) (limits : LimitsMap) :
    ∀ (ps : List UnassignedPayout) (c : Nat) (a : Assignment),
      a ∈ (distributeLoop traders limits ps c).1 →
        a.payout_id ∈ ps.map UnassignedPayout.id := by
  intro ps
  induction ps with
  | nil =>
    intro c a h
    simp [distributeLoop] at h
  | cons p rest ih =>
    intro c a h
    simp only [distributeLoop] at h
    by_cases hamt : p.amount.getD 0 ≤ 0
    · rw [if_pos hamt] at h
      exact List.mem_cons_of_mem _ (ih c a h)
    · rw [if_neg hamt] at h
      cases hsel : selectTrader traders limits (p.amount.getD 0) c with
      | none =>
        rw [hsel] at h
        exact List.mem_cons_of_mem _ (ih c a h)
      | some pair =>
        obtain ⟨idx, t⟩ := pair
        rw [hsel] at h
        simp only [List.mem_cons] at h
        rcases h with rfl | h
        · simp
        · simp only [List.map_cons, List.mem_cons]
          right
          exact ih _ a h

lemma distribute_skip_removal (traders : List TraderRecord) (limits : LimitsMap)
    (l1 l2 : List UnassignedPayout) (p : UnassignedPayout) (cursor : Nat)
    (hskip : ∀ c, p.amount.getD 0 ≤ 0 ∨
        selectTrader traders limits (p.amount.getD 0) c = none) :
    distribute_payouts_evenly traders (l1 ++ p :: l2) limits cursor
      = distribute_payouts_evenly traders (l1 ++ l2) limits cursor
    ∧ (p.id ∉ (l1 ++ l2).map UnassignedPayout.id →
        ∀ a ∈ (distribute_payouts_evenly traders (l1 ++ p :: l2) limits cursor).1,
          a.payout_id ≠ p.id) := by
  have heq : distribute_payouts_evenly traders (l1 ++ p :: l2) limits cursor
      = distribute_payouts_evenly traders (l1 ++ l2) limits cursor := by
    rw [distribute_eq_distributeLoop, distribute_eq_distributeLoop]
    exact distributeLoop_middle_skip traders limits p l2 hskip l1 cursor
  refine ⟨heq, ?_⟩
  intro hfresh a ha hcontra
  rw [heq, distribute_eq_distributeLoop] at ha
  have hm := distributeLoop_payout_ids traders limits (l1 ++ l2) cursor a ha
  rw [hcontra] at hm
  exact hfresh hm

/-- C6: a payout whose amount exceeds every worker's limit gets no
pairing, and removing it from the input leaves the pairings of all
other payouts (and the cursor) unchanged. -/
theorem oversized_payout_skipped (traders : List TraderRecord) (limits : LimitsMap)
    (l1 l2 : List UnassignedPayout) (p : UnassignedPayout) (cursor : Nat)
    (hover : ∀ t ∈ traders, ∃ m, limits t.id = some m ∧ m < p.amount.getD 0) :
    distribute_payouts_evenly traders (l1 ++ p :: l2) limits cursor
      = distribute_payouts_evenly traders (l1 ++ l2) limits cursor
    ∧ (p.id ∉ (l1 ++ l2).map UnassignedPayout.id →
        ∀ a ∈ (distribute_payouts_evenly traders (l1 ++ p :: l2) limits cursor).1,
          a.payout_id ≠ p.id) := by
  apply distribute_skip_removal
  intro c
  right
  unfold selectTrader
  apply selectTraderFrom_none_of_reject
  intro t ht
  obtain ⟨m, hm, hlt⟩ := hover t ht
  simp only [traderAllowed, hm]
  exact decide_eq_false (not_le.mpr hlt)

/-- Witness for C6 at a concrete input: a 500 payout against a single
worker capped at 100 is dropped and does not disturb the rest. -/
theorem oversized_payout_skipped_witness :
    distribute_payouts_evenly [⟨"W1", "w1", 1⟩]
        ([] ++ (⟨"P1", 1, some 500⟩ : UnassignedPayout) :: [⟨"P2", 2, some 50⟩])
        (fun _ => some 100) 0
      = distribute_payouts_evenly [⟨"W1", "w1", 1⟩] ([] ++ [⟨"P2", 2, some 50⟩])
        (fun _ => some 100) 0 :=
  (oversized_payout_skipped [⟨"W1", "w1", 1⟩] (fun _ => some 100)
    [] [⟨"P2", 2, some 50⟩] ⟨"P1", 1, some 500⟩ 0
    (by intro t ht; exact ⟨100, rfl, by norm_num⟩)).1

/-- C9: a payout whose amount is absent (null) in the store is treated
as 0 by the distribution cycle, gets no pairing, and its presence does
not disturb the pairings of other payouts; the cycle reports no error
for it (the embedded assignment phase is total). -/
theorem null_amount_payout_skipped (traders : List TraderRecord) (limits : LimitsMap)
    (l1 l2 : List UnassignedPayout) (p : UnassignedPayout) (cursor : Nat)
    (hnull : p.amount = none) :
    distribute_payouts_evenly traders (l1 ++ p :: l2) limits cursor
      = distribute_payouts_evenly traders (l1 ++ l2) limits cursor
    ∧ (p.id ∉ (l1 ++ l2).map UnassignedPayout.id →
        ∀ a ∈ (distribute_payouts_evenly traders (l1 ++ p :: l2) limits cursor).1,
          a.payout_id ≠ p.id) := by
  apply distribute_skip_removal
  intro c
  left
  rw [hnull]
  simp

/-- Witness for C9 at a concrete input: a null-amount payout is dropped
and does not disturb the rest. -/
theorem null_amount_payout_skipped_witness :
    distribute_payouts_evenly [⟨"W1", "w1", 1⟩]
        ([] ++ (⟨"P1", 1, none⟩ : UnassignedPayout) :: [⟨"P2", 2, some 50⟩])
        (fun _ => none) 0
      = distribute_payouts_evenly [⟨"W1", "w1", 1⟩] ([] ++ [⟨"P2", 2, some 50⟩])
        (fun _ => none) 0 :=
  (null_amount_payout_skipped [⟨"W1", "w1", 1⟩] (fun _ => none)
    [] [⟨"P2", 2, some 50⟩] ⟨"P1", 1, none⟩ 0 rfl).1

/-- A `"Payout"` row as seen by the conditional claim update of
`distribute_payouts_evenly` (lines 1208–1228 of `main.rs`):
`aggregator_claimed` models the `EXISTS` subquery against
`"AggregatorPayout"`, `accepted_at_set` models `"acceptedAt" IS NULL`
being false. -/
structure PayoutRow where
  trader_id : Option String
  direction : String
  status : String
  accepted_at_set : Bool
  aggregator_claimed : Bool
  acceptance_time : Option Int
  deriving Repr, DecidableEq

/-- The relational store, keyed by payout id. -/
abbrev Store := String → Option PayoutRow

/-- The WHERE clause of the claim update: `"traderId" IS NULL AND
"direction" = 'OUT' AND "status" = 'CREATED' AND "acceptedAt" IS NULL
AND NOT EXISTS (... "AggregatorPayout" ...)`. -/
def claimEligible (row : PayoutRow) : Bool :=
  row.trader_id.isNone && (row.direction == "OUT") && (row.status == "CREATED")
    && (!row.accepted_at_set) && (!row.aggregator_claimed)

/-- One conditional claim update: `SET "traderId" = $1,
"acceptanceTime" = 40 WHERE ...`; returns the updated store and the
number of rows affected (0 when the row is missing or ineligible). -/
def applyClaim (store : Store) (payout_id trader_id : String) : Store × Nat :=
  match store payout_id with
  | some row =>
    if claimEligible row then
      (fun k => if k = payout_id then
          some { row with trader_id := some trader_id, acceptance_time := some 40 }
        else store k, 1)
    else (store, 0)
  | none => (store, 0)

/-- The `for (payout_id, trader_id, ..) in &assignments` loop executed
inside the single `pool.begin()` transaction of
`distribute_payouts_evenly`.  `failsAt i` injects a store failure on the
i-th statement (the `?` on `.execute` propagates it, aborting the
transaction); `applied` counts `rows_affected() > 0` updates. -/
def commitAssignments (failsAt : Nat → Bool) :
    Store → List Assignment → Nat → Nat → Except Unit (Store × Nat)
  | store, [], _, applied => .ok (store, applied)
  | store, a :: rest, i, applied =>
    if failsAt i then .error ()
    else
      let res := applyClaim store a.payout_id a.trader_id
      commitAssignments failsAt res.1 rest (i + 1) (applied + res.2)

/-- The commit phase of one distribution cycle: a single transaction is
opened for the whole batch, every claim update runs inside it, and
`tx.commit()` runs once at the end; when any statement fails the `?`
operator drops the transaction, which rolls every already-executed
update back, leaving the store as it was. -/
def runCommitPhase (failsAt : Nat → Bool) (store : Store) (asgs : List Assignment) : Store :=
  match commitAssignments failsAt store asgs 0 0 with
  | .ok (s, _) => s
  | .error _ => store

/-- An eligible concrete payout row. -/
def freshRow : PayoutRow :=
  ⟨none, "OUT", "CREATED", false, false, none⟩

/-- A concrete store holding two eligible payouts A and B. -/
def cxStore : Store :=
  fun k => if k = "A" then some freshRow else if k = "B" then some freshRow else none

/-- The concrete assignments of the C3 counterexample: A to T1 and then
B to T2. -/
def cxAsgs : List Assignment :=
  [⟨"A", "T1", 1, 1⟩, ⟨"B", "T2", 2, 2⟩]

/-- C3 counterexample: both pairings target eligible rows, the first
claim update applies (1 row affected), the write for the second pairing
fails — and the cycle leaves the store exactly as before, with payout A
still unassigned.  The pairing applied earlier in the cycle is NOT kept,
because the cycle runs one transaction for the whole batch, not one
transaction per pairing. -/
theorem commit_phase_counterexample :
    (applyClaim cxStore "A" "T1").2 = 1
    ∧ (fun i => decide (i = 1)) 1 = true
    ∧ runCommitPhase (fun i => decide (i = 1)) cxStore cxAsgs = cxStore
    ∧ (cxStore "A").map PayoutRow.trader_id = some none := by
  refine ⟨by decide, by decide, ?_, by decide⟩
  have h : commitAssignments (fun i => decide (i = 1)) cxStore cxAsgs 0 0
      = .error () := rfl
  unfold runCommitPhase
  rw [h]

/-- C3 amended: a distribution cycle commits the whole batch of
pairings in one store transaction; if any pairing's write fails partway
through the cycle, the transaction aborts and none of the pairings of
that cycle — including ones already applied earlier in it — remains
committed: the store is left exactly as before the cycle. -/
theorem commit_phase_batch_atomic (failsAt : Nat → Bool) (store : Store)
    (asgs : List Assignment)
    (hfail : ∃ i, i < asgs.length ∧ failsAt i = true) :
    runCommitPhase failsAt store asgs = store := by
  have key : ∀ (l : List Assignment) (s : Store) (i applied : Nat),
      (∃ j, j < l.length ∧ failsAt (i + j) = true) →
      commitAssignments failsAt s l i applied = .error () := by
    intro l
    induction l with
    | nil =>
      intro s i applied h
      obtain ⟨j, hj, _⟩ := h
      simp at hj
    | cons a rest ih =>
      intro s i applied h
      by_cases hi : failsAt i
      · simp [commitAssignments, hi]
      · obtain ⟨j, hj, hf⟩ := h
        have hj0 : j ≠ 0 := by
          intro h0
          rw [h0, Nat.add_zero] at hf
          exact hi hf
        obtain ⟨j', rfl⟩ := Nat.exists_eq_succ_of_ne_zero hj0
        simp only [commitAssignments, if_neg hi]
        apply ih
        refine ⟨j', ?_, ?_⟩
        · simpa using hj
        · have : i + 1 + j' = i + (j' + 1) := by omega
          rw [this]
          exact hf
  obtain ⟨i, hi, hf⟩ := hfail
  have herr : commitAssignments failsAt store asgs 0 0 = .error () :=
    key asgs store 0 0 ⟨i, hi, by simpa using hf⟩
  unfold runCommitPhase
  rw [herr]

/-- Witness for C3's amended theorem at the concrete counterexample
input. -/
theorem commit_phase_batch_atomic_witness :
    runCommitPhase (fun i => decide (i = 1)) cxStore cxAsgs = cxStore :=
  commit_phase_batch_atomic (fun i => decide (i = 1)) cxStore cxAsgs
    ⟨1, by decide, by decide⟩

/-- `needle` starts the list `hay` (character-wise). -/
def listStartsWith : List Char → List Char → Bool
  | [], _ => true
  | _ :: _, [] => false
  | a :: as, b :: bs => a == b && listStartsWith as bs

/-- `needle` occurs somewhere inside `hay` (character-wise). -/
def listHasSub (needle : List Char) : List Char → Bool
  | [] => listStartsWith needle []
  | b :: bs => listStartsWith needle (b :: bs) || listHasSub needle bs

/-- ASCII lower-casing of a character. -/
def lowerChar (c : Char) : Char :=
  if 65 ≤ c.toNat ∧ c.toNat ≤ 90 then Char.ofNat (c.toNat + 32) else c

/-- `needle` occurs as a substring of `hay`, ASCII case-insensitively. -/
def strHasSubCI (needle hay : String) : Bool :=
  listHasSub (needle.toList.map lowerChar) (hay.toList.map lowerChar)

/-- The payout row fields read and written by `cancel_payout` (the
`FOR UPDATE` select, the terminal-status guard and the conditional
`UPDATE ... SET "status" = 'CANCELLED' ...`). -/
structure CancelRow where
  status : String
  cancel_reason : Option String
  cancel_reason_code : Option String
  cancelled_at_set : Bool
  deriving Repr, DecidableEq

/-- The store as seen by the cancellation handler. -/
abbrev CancelStore := String → Option CancelRow

/-- The request-field sanitisation shared by `cancel_payout` and
`dispatch_payout_callback`: `.map(|v| v.trim()).filter(|v| !v.is_empty())`. -/
def trimNonEmpty (v : Option String) : Option String :=
  (v.map String.trim).filter (fun s => !s.isEmpty)

/-- What the cancellation endpoint produced: the HTTP-level result
(error status code and message, or success), the store after the
operation, and whether the callback dispatcher was invoked. -/
structure CancelOutcome where
  result : Except (Nat × String) Unit
  store : CancelStore
  callbackInvoked : Bool

/-- The cancellation handler `cancel_payout`: trim/filter the optional
reason fields, load the payout row (404 when absent), reject terminal
statuses with a 400 error and roll the transaction back, otherwise set
the status to CANCELLED with `COALESCE` semantics for the reason
fields, commit, and only then invoke the callback dispatcher. -/
def cancel_payout (store : CancelStore) (payout_id : String)
    (reason reason_code : Option String) : CancelOutcome :=
  let reason := trimNonEmpty reason
  let reason_code := trimNonEmpty reason_code
  match store payout_id with
  | none => ⟨.error (404, "Payout not found"), store, false⟩
  | some payout =>
    if payout.status = "CANCELLED" then
      ⟨.error (400, "Payout is already cancelled"), store, false⟩
    else if payout.status = "COMPLETED" ∨ payout.status = "SUCCESS"
        ∨ payout.status = "FAILED" then
      ⟨.error (400, "Payout with status " ++ payout.status ++ " cannot be cancelled"),
        store, false⟩
    else
      let newRow : CancelRow :=
        { status := "CANCELLED"
          cancelled_at_set := true
          cancel_reason := match reason with
            | some r => some r
            | none => payout.cancel_reason
          cancel_reason_code := match reason_code with
            | some r => some r
            | none => payout.cancel_reason_code }
      ⟨.ok (), fun k => if k = payout_id then some newRow else store k, true⟩

/-- C4: cancelling a payout whose status is CANCELLED, COMPLETED,
SUCCESS, or FAILED fails with a user-facing 4xx conflict error whose
message names the current status, performs no store mutation, and makes
no callback attempt. -/
theorem cancel_terminal_rejected (store : CancelStore) (payout_id : String)
    (row : CancelRow) (reason reason_code : Option String)
    (hrow : store payout_id = some row)
    (hterm : row.status = "CANCELLED" ∨ row.status = "COMPLETED"
      ∨ row.status = "SUCCESS" ∨ row.status = "FAILED") :
    ∃ msg, (cancel_payout store payout_id reason reason_code).result = .error (400, msg)
      ∧ strHasSubCI row.status msg = true
      ∧ (cancel_payout store payout_id reason reason_code).store = store
      ∧ (cancel_payout store payout_id reason reason_code).callbackInvoked = false := by
  rcases hterm with h | h | h | h
  · exact ⟨"Payout is already cancelled", by simp [cancel_payout, hrow, h],
      by rw [h]; decide, by simp [cancel_payout, hrow, h], by simp [cancel_payout, hrow, h]⟩
  · refine ⟨"Payout with status COMPLETED cannot be cancelled", ?_, by rw [h]; decide, ?_, ?_⟩
    · simp [cancel_payout, hrow, h]
    · simp [cancel_payout, hrow, h]
    · simp [cancel_payout, hrow, h]
  · refine ⟨"Payout with status SUCCESS cannot be cancelled", ?_, by rw [h]; decide, ?_, ?_⟩
    · simp [cancel_payout, hrow, h]
    · simp [cancel_payout, hrow, h]
    · simp [cancel_payout, hrow, h]
  · refine ⟨"Payout with status FAILED cannot be cancelled", ?_, by rw [h]; decide, ?_, ?_⟩
    · simp [cancel_payout, hrow, h]
    · simp [cancel_payout, hrow, h]
    · simp [cancel_payout, hrow, h]

/-- Witness for C4: cancelling a COMPLETED payout in a concrete
one-row store. -/
theorem cancel_terminal_rejected_witness :
    ∃ msg, (cancel_payout (fun k => if k = "P" then some ⟨"COMPLETED", none, none, false⟩ else none)
        "P" none none).result = .error (400, msg)
      ∧ strHasSubCI "COMPLETED" msg = true
      ∧ (cancel_payout (fun k => if k = "P" then some ⟨"COMPLETED", none, none, false⟩ else none)
          "P" none none).store
        = (fun k => if k = "P" then some ⟨"COMPLETED", none, none, false⟩ else none)
      ∧ (cancel_payout (fun k => if k = "P" then some ⟨"COMPLETED", none, none, false⟩ else none)
          "P" none none).callbackInvoked = false :=
  cancel_terminal_rejected
    (fun k => if k = "P" then some ⟨"COMPLETED", none, none, false⟩ else none)
    "P" ⟨"COMPLETED", none, none, false⟩ none none rfl (Or.inr (Or.inl rfl))

end ChaseLinker

namespace ChaseLinker

/-- The destination's answer when a callback request is actually sent:
either a transport failure rendered as text, or an HTTP status code and
response body. -/
structure NetResponse where
  status : Nat
  body : String
  deriving Repr, DecidableEq

/-- The payout fields `dispatch_payout_callback` reads: the merchant's
webhook URL and API credential from the `FOR UPDATE` select's join, and
the payout id for the audit record. -/
structure CallbackPayout where
  id : String
  merchant_webhook_url : Option String
  merchant_api_key : Option String
  deriving Repr, DecidableEq

/-- The `CallbackDispatchResult` struct of `main.rs`. -/
structure CallbackDispatchResult where
  delivered : Bool
  status_code : Option Nat
  response_body : Option String
  error : Option String
  url : Option String
  deriving Repr, DecidableEq

/-- `CallbackDispatchResult::not_attempted`. -/
def CallbackDispatchResult.not_attempted (reason : String) (url : Option String) :
    CallbackDispatchResult :=
  ⟨false, none, none, some reason, url⟩

/-- One `"PayoutCallbackHistory"` row inserted by
`log_payout_callback`. -/
structure AuditRecord where
  payout_id : String
  url : String
  status_code : Option Nat
  response : Option String
  error : Option String
  deriving Repr, DecidableEq

/-- The audit row `log_payout_callback` builds from a dispatch
result. -/
def logRecord (payout : CallbackPayout) (url : String)
    (result : CallbackDispatchResult) : AuditRecord :=
  ⟨payout.id, url, result.status_code, result.response_body, result.error⟩

/-- `dispatch_payout_callback`: check the webhook URL and the API key
(trimmed, non-blank) before any network call, short-circuiting to a
"not attempted" result that is still audit-logged; otherwise send the
request (its outcome is the `net` parameter), with `delivered` true iff
the status is in the 2xx class, a non-success status rendered as
`HTTP <code>` and a transport failure rendered as its message; the
audit record is appended in every branch before the result is
returned.  Returns (result, number of network requests made, audit
rows appended). -/
def dispatch_payout_callback (net : Except String NetResponse)
    (payout : CallbackPayout) :
    CallbackDispatchResult × Nat × List AuditRecord :=
  match trimNonEmpty payout.merchant_webhook_url with
  | none =>
    let result := CallbackDispatchResult.not_attempted
      "Merchant webhook URL is not configured" (some "(missing-webhook-url)")
    (result, 0, [logRecord payout "(missing-webhook-url)" result])
  | some webhook_url =>
    match trimNonEmpty payout.merchant_api_key with
    | none =>
      let result := CallbackDispatchResult.not_attempted
        "Merchant API key is not configured" (some webhook_url)
      (result, 0, [logRecord payout webhook_url result])
    | some _api_key =>
      let dispatch_result : CallbackDispatchResult :=
        match net with
        | .ok resp =>
          let success := decide (200 ≤ resp.status) && decide (resp.status < 300)
          { delivered := success
            status_code := some resp.status
            response_body := if resp.body.isEmpty then none else some resp.body
            error := if success then none else some ("HTTP " ++ toString resp.status)
            url := some webhook_url }
        | .error err =>
          { delivered := false, status_code := none, response_body := none,
            error := some err, url := some webhook_url }
      (dispatch_result, 1, [logRecord payout webhook_url dispatch_result])

/-- C5: with a missing/blank webhook URL or API credential the
dispatcher makes no network call and returns delivered=false with the
error text set while still appending one audit record; when both are
present a request is sent and delivered=true iff the destination
answers with a 2xx status; in every case exactly one audit record is
appended before returning, and it carries the result's status code and
error. -/
theorem dispatch_callback_spec (net : Except String NetResponse)
    (payout : CallbackPayout) :
    ((trimNonEmpty payout.merchant_webhook_url = none
        ∨ trimNonEmpty payout.merchant_api_key = none) →
      (dispatch_payout_callback net payout).2.1 = 0
        ∧ (dispatch_payout_callback net payout).1.delivered = false
        ∧ (dispatch_payout_callback net payout).1.error.isSome = true)
    ∧ (trimNonEmpty payout.merchant_webhook_url ≠ none →
        trimNonEmpty payout.merchant_api_key ≠ none →
        (dispatch_payout_callback net payout).2.1 = 1
          ∧ ((dispatch_payout_callback net payout).1.delivered = true ↔
              ∃ resp, net = .ok resp ∧ 200 ≤ resp.status ∧ resp.status < 300))
    ∧ (dispatch_payout_callback net payout).2.2
        = [logRecord payout
            (((dispatch_payout_callback net payout).1.url).getD "(missing-webhook-url)")
            (dispatch_payout_callback net payout).1] := by
  cases hurl : trimNonEmpty payout.merchant_webhook_url with
  | none =>
    refine ⟨fun _ => ?_, fun hu _ => absurd rfl hu, ?_⟩
    · simp [dispatch_payout_callback, hurl, CallbackDispatchResult.not_attempted]
    · simp [dispatch_payout_callback, hurl, CallbackDispatchResult.not_attempted]
  | some u =>
    cases hkey : trimNonEmpty payout.merchant_api_key with
    | none =>
      refine ⟨fun _ => ?_, fun _ hk => absurd rfl hk, ?_⟩
      · simp [dispatch_payout_callback, hurl, hkey, CallbackDispatchResult.not_attempted]
      · simp [dispatch_payout_callback, hurl, hkey, CallbackDispatchResult.not_attempted]
    | some k =>
      refine ⟨?_, fun _ _ => ⟨?_, ?_⟩, ?_⟩
      · rintro (h | h) <;> simp at h
      · cases net with
        | ok resp => simp [dispatch_payout_callback, hurl, hkey]
        | error e => simp [dispatch_payout_callback, hurl, hkey]
      · cases net with
        | ok resp =>
          simp only [dispatch_payout_callback, hurl, hkey]
          constructor
          · intro hdel
            refine ⟨resp, rfl, ?_, ?_⟩
            · have := of_decide_eq_true (Bool.and_elim_left hdel)
              exact this
            · have := of_decide_eq_true (Bool.and_elim_right hdel)
              exact this
          · rintro ⟨resp', heq, h1, h2⟩
            cases heq
            simp [decide_eq_true h1, decide_eq_true h2]
        | error e =>
          simp [dispatch_payout_callback, hurl, hkey]
      · cases net with
        | ok resp => simp [dispatch_payout_callback, hurl, hkey]
        | error e => simp [dispatch_payout_callback, hurl, hkey]

/-- Witness for C5 at a concrete input: missing webhook URL with the
credential present. -/
theorem dispatch_callback_spec_witness :
    (dispatch_payout_callback (.ok ⟨200, ""⟩) ⟨"P", none, some "key"⟩).2.1 = 0
      ∧ (dispatch_payout_callback (.ok ⟨200, ""⟩) ⟨"P", none, some "key"⟩).1.delivered
        = false
      ∧ (dispatch_payout_callback (.ok ⟨200, ""⟩)
          ⟨"P", none, some "key"⟩).1.error.isSome = true :=
  (dispatch_callback_spec (.ok ⟨200, ""⟩) ⟨"P", none, some "key"⟩).1 (Or.inl rfl)

end ChaseLinker

namespace ChaseLinker

/-- `update_trader_limit_internal`: sanitise the requested limit by
keeping it only when strictly positive (`max_amount.filter(|value|
*value > 0.0)`), then either insert the sanitised value into the
capacity registry or remove the worker's entry; the sanitised value is
what the endpoint reports back. -/
def update_trader_limit_internal (limits : LimitsMap) (trader_id : String)
    (max_amount : Option Rat) : LimitsMap × Option Rat :=
  let sanitized := max_amount.filter (fun value => decide (0 < value))
  match sanitized with
  | some value => (fun k => if k = trader_id then some value else limits k, some value)
  | none => (fun k => if k = trader_id then none else limits k, none)

/-- C8: a maxAmount that is absent or ≤ 0 clears the worker's limit
(the registry afterwards holds no entry for the worker) and the
operation reports no stored limit; a strictly positive maxAmount is
stored exactly, and reported back exactly. -/
theorem update_limit_sanitization (limits : LimitsMap) (trader_id : String)
    (max_amount : Option Rat) :
    ((max_amount = none ∨ ∃ v, max_amount = some v ∧ v ≤ 0) →
      (update_trader_limit_internal limits trader_id max_amount).1 trader_id = none
        ∧ (update_trader_limit_internal limits trader_id max_amount).2 = none)
    ∧ (∀ v, max_amount = some v → 0 < v →
        (update_trader_limit_internal limits trader_id max_amount).1 trader_id = some v
          ∧ (update_trader_limit_internal limits trader_id max_amount).2 = some v) := by
  constructor
  · rintro (rfl | ⟨v, rfl, hv⟩)
    · simp [update_trader_limit_internal]
    · simp [update_trader_limit_internal, Option.filter, not_lt.mpr hv]
  · rintro v rfl hv
    simp [update_trader_limit_internal, Option.filter, hv]

/-- Witness for C8 at concrete inputs: a zero limit clears the entry. -/
theorem update_limit_sanitization_witness :
    (update_trader_limit_internal (fun _ => some 5) "T" (some 0)).1 "T" = none
      ∧ (update_trader_limit_internal (fun _ => some 5) "T" (some 0)).2 = none :=
  (update_limit_sanitization (fun _ => some 5) "T" (some 0)).1
    (Or.inr ⟨0, rfl, le_refl 0⟩)

/-- Every limit value the capacity registry stores is strictly
positive. -/
def registryInv (limits : LimitsMap) : Prop :=
  ∀ k v, limits k = some v → 0 < v

/-- A sequence of set-worker-limit requests applied to the registry in
order. -/
def applyLimitOps : List (String × Option Rat) → LimitsMap → LimitsMap
  | [], limits => limits
  | (trader_id, max_amount) :: rest, limits =>
    applyLimitOps rest (update_trader_limit_internal limits trader_id max_amount).1

/-- C10: the only mutating operation of the capacity registry either
inserts a strictly positive value or removes the entry, so the
invariant "every stored limit is > 0" is preserved by each operation,
and any sequence of operations from the empty registry (the process's
initial state) keeps it — the assignment policy can never observe a
stored limit ≤ 0. -/
theorem limits_registry_invariant :
    registryInv (fun _ => none)
    ∧ (∀ (limits : LimitsMap) (trader_id : String) (max_amount : Option Rat),
        registryInv limits →
          registryInv (update_trader_limit_internal limits trader_id max_amount).1)
    ∧ (∀ ops, registryInv (applyLimitOps ops (fun _ => none))) := by
  have hstep : ∀ (limits : LimitsMap) (trader_id : String) (max_amount : Option Rat),
      registryInv limits →
        registryInv (update_trader_limit_internal limits trader_id max_amount).1 := by
    intro limits trader_id max_amount hinv k v hk
    cases hs : max_amount.filter (fun value => decide (0 < value)) with
    | none =>
      simp only [update_trader_limit_internal, hs] at hk
      by_cases hkt : k = trader_id
      · rw [if_pos hkt] at hk
        cases hk
      · rw [if_neg hkt] at hk
        exact hinv k v hk
    | some value =>
      have hpos : 0 < value := by
        have h := Option.filter_eq_some.mp hs
        exact of_decide_eq_true h.2
      simp only [update_trader_limit_internal, hs] at hk
      by_cases hkt : k = trader_id
      · rw [if_pos hkt] at hk
        obtain rfl : value = v := by injection hk
        exact hpos
      · rw [if_neg hkt] at hk
        exact hinv k v hk
  have hempty : registryInv (fun _ => none) := by
    intro k v hk
    cases hk
  refine ⟨hempty, hstep, ?_⟩
  intro ops
  have hall : ∀ (ops : List (String × Option Rat)) (limits : LimitsMap),
      registryInv limits → registryInv (applyLimitOps ops limits) := by
    intro ops
    induction ops with
    | nil => intro limits h; exact h
    | cons op rest ih =>
      intro limits h
      obtain ⟨trader_id, max_amount⟩ := op
      exact ih _ (hstep limits trader_id max_amount h)
  exact hall ops (fun _ => none) hempty

/-- Witness for C10 at a concrete input: after setting a limit of 7 and
then clearing it with -3, the registry still satisfies the
invariant. -/
theorem limits_registry_invariant_witness :
    registryInv (applyLimitOps [("T", some 7), ("T", some (-3))] (fun _ => none)) :=
  limits_registry_invariant.2.2 [("T", some 7), ("T", some (-3))]

end ChaseLinker
